import Mathlib

/-!
# Verification of the oauth_gateway reverse proxy against its specification

Shallow embedding of the request-handling pipeline of the `oauth_gateway`
repository (an authenticating reverse HTTP proxy): header hygiene, virtual-host
routing, public-route matching, bearer-token extraction and introspection,
upstream URI rewriting, identity-header injection, and the SNI certificate
resolver.  Each definition is translated from the corresponding Rust source
(`src/main.rs`, `src/auth.rs`, `src/config/server.rs`, `src/tls_manager.rs`,
`src/auth/async_client.rs`, `src/auth/extensions/keybase.rs`).
-/

set_option autoImplicit false

namespace Gateway

/-- ASCII-lowercase a character (Rust `u8::to_ascii_lowercase` / the case
folding used by `unicase::Ascii` and `eq_ignore_ascii_case`). -/
def lowerChar (c : Char) : Char :=
  if 'A' ≤ c ∧ c ≤ 'Z' then Char.ofNat (c.toNat + 32) else c

/-- ASCII-lowercase a string. -/
def asciiLower (s : String) : String :=
  String.mk (s.toList.map lowerChar)

/-- ASCII-case-insensitive string equality, the comparison performed by
`unicase::Ascii` (used for host names and certificate-store keys) and by
`str::eq_ignore_ascii_case`. -/
def asciiEqCI (a b : String) : Bool :=
  a.toList.map lowerChar == b.toList.map lowerChar

/-- A header value as stored by hyper's `HeaderValue`: an opaque byte string.
For the code paths modelled here only two facts about the bytes matter:
whether they decode as UTF-8 (and to which string), so the embedding keeps
either the decoded text or an `undecodable` marker. -/
inductive HVal where
  | text (s : String)
  | undecodable
deriving DecidableEq, Repr

/-- A header map.  hyper's `HeaderMap` stores header names case-insensitively;
its parser normalises names to lowercase, so the embedding stores all names
lowercase and compares them with `==`. -/
abbrev Headers := List (String × HVal)

/-- `HeaderMap::get`: the first value stored under the name. -/
def getHeader (hs : Headers) (name : String) : Option HVal :=
  (hs.find? (fun e => e.1 == name)).map (fun e => e.2)

/-- `HeaderMap::remove`-like removal of every value stored under the name
(hyper's `remove` drops the whole multi-entry for the name). -/
def removeHeader (hs : Headers) (name : String) : Headers :=
  hs.filter (fun e => e.1 != name)

/-- `HeaderMap::insert`: drop all existing values for the name, add one. -/
def insertHeader (hs : Headers) (name : String) (v : HVal) : Headers :=
  removeHeader hs name ++ [(name, v)]

/-- `HeaderMap::append`: add a value, keeping existing values for the name. -/
def appendHeader (hs : Headers) (name : String) (v : HVal) : Headers :=
  hs ++ [(name, v)]

/-- Number of values stored under a name. -/
def countHeader (hs : Headers) (name : String) : Nat :=
  (hs.filter (fun e => e.1 == name)).length

/-- HTTP versions (`hyper::Version`). -/
inductive Version where
  | http09
  | http10
  | http11
  | http2
  | http3
deriving DecidableEq, Repr

/-- A socket address (`std::net::SocketAddr`), carrying the string its
`Display` implementation renders (`1.2.3.4:port` for V4, `[…]:port` for V6). -/
inductive SockAddr where
  | v4 (rendered : String)
  | v6 (rendered : String)
deriving DecidableEq, Repr

/-- The components of `http::Uri` used by the proxy. -/
structure Uri where
  scheme : Option String
  authority : Option String
  path : String
  query : Option String
deriving DecidableEq, Repr

/-- An HTTP request as seen by the handler: `hyper::Request<Body>` (and, after
conversion, `reqwest::Request`, which keeps the same URI, version and header
map; the body is irrelevant to every property below). -/
structure Request where
  uri : Uri
  version : Version
  headers : Headers
deriving DecidableEq, Repr

/-- An HTTP response as built by the handler (status, version, headers; the
body is irrelevant to every property below).  `Response::builder()` starts
from status `200` and version `HTTP_11`, which are the defaults here. -/
structure Resp where
  status : Nat
  version : Version
  headers : Headers
deriving DecidableEq, Repr

/-- `Response::builder().status(st).body(…)`: an empty synthetic response.
The builder's version default is `HTTP_11`; the handler's synthetic responses
never override it. -/
def mkResponse (st : Nat) : Resp :=
  { status := st, version := Version.http11, headers := [] }

/-! ## Regular expressions (`regex::RegexSet` as used for public routes)

`config/server.rs` deserialises each configured pattern `p` into the anchored
pattern `^p$` and compiles the collection as a `RegexSet`.  The embedding
represents a compiled pattern by its syntax tree and gives it the standard
matching semantics via Brzozowski derivatives.  Since every pattern in the set
is anchored on both sides, `RegexSet::is_match` (match anywhere in the input)
coincides with a whole-string match of the unanchored pattern, which is how
`regexSetIsMatch` is defined. -/

/-- Regular-expression syntax trees. -/
inductive Regex where
  | emp
  | eps
  | chr (c : Char)
  | dot
  | cat (r1 r2 : Regex)
  | alt (r1 r2 : Regex)
  | star (r : Regex)
deriving DecidableEq, Repr

/-- Does the regex accept the empty string? -/
def Regex.nullable : Regex → Bool
  | .emp => false
  | .eps => true
  | .chr _ => false
  | .dot => false
  | .cat r1 r2 => r1.nullable && r2.nullable
  | .alt r1 r2 => r1.nullable || r2.nullable
  | .star _ => true

/-- Brzozowski derivative of a regex by one character. -/
def Regex.deriv : Regex → Char → Regex
  | .emp, _ => .emp
  | .eps, _ => .emp
  | .chr c, a => if c = a then .eps else .emp
  | .dot, _ => .eps
  | .cat r1 r2, a =>
      if r1.nullable then .alt (.cat (r1.deriv a) r2) (r2.deriv a)
      else .cat (r1.deriv a) r2
  | .alt r1 r2, a => .alt (r1.deriv a) (r2.deriv a)
  | .star r, a => .cat (r.deriv a) (.star r)

/-- Whole-string match of a regex. -/
def reFullMatch (r : Regex) (s : String) : Bool :=
  (s.toList.foldl Regex.deriv r).nullable

/-- The regex matching one literal string (a pattern of literal characters). -/
def strRegex (s : String) : Regex :=
  s.toList.foldr (fun c r => Regex.cat (.chr c) r) .eps

/-- `RegexSet::is_match` over a set built from patterns pre-anchored as `^p$`
by `deserialize_patterns`: some member pattern matches the whole input. -/
def regexSetIsMatch (patterns : List Regex) (s : String) : Bool :=
  patterns.any (fun p => reFullMatch p s)

/-! ## Server configuration (`config/server.rs`) -/

/-- A virtual host (`config::server::Server`).  `public_routes` holds the
configured patterns (each of which `deserialize_patterns` anchors as `^p$`
before compiling the `RegexSet`); the TLS file paths play no role in the
properties below.  The certified key loaded for a TLS-enabled server is
abstracted by a numeric identity. -/
structure Server where
  name : String
  listen : SockAddr
  upstream : String
  upstream_tls : Bool
  public_routes : List Regex
deriving DecidableEq, Repr

/-- `Server::is_public_route`: match the URI's path (only) against the
anchored pattern set. -/
def Server.is_public_route (server : Server) (uri : Uri) : Bool :=
  let path := uri.path
  regexSetIsMatch server.public_routes path

/-! ## Introspection extension fields (`auth.rs`, `auth/extensions*.rs`) -/

/-- A JSON-like value (`serde_value::Value` restricted to the shapes relevant
to the role-claim extension). -/
inductive Json where
  | str (s : String)
  | num (n : Int)
  | bool (b : Bool)
  | null
  | arr (xs : List Json)
  | obj (fields : List (String × Json))

/-- Field lookup in a JSON object (first binding wins, as in serde maps). -/
def Json.field? (j : Json) (name : String) : Option Json :=
  match j with
  | .obj fields => (fields.find? (fun f => f.1 == name)).map (fun f => f.2)
  | _ => none

/-- Decode a JSON value as a string, as serde does for a `String` field. -/
def Json.asString? : Json → Option String
  | .str s => some s
  | _ => none

/-- Decode every element of a list as a string; any non-string fails the
whole decode (serde's `Vec<String>`). -/
def decodeStringList : List Json → Option (List String)
  | [] => some []
  | x :: xs => do
      let s ← x.asString?
      let rest ← decodeStringList xs
      pure (s :: rest)

/-- Deserialisation of `auth::extensions::keybase::Token` from the extension
value: requires a `realm_access` object holding a `roles` list of strings
(`#[serde(untagged)] enum Token { Keybase(…) }` matches exactly when this
shape is present). -/
def keybaseRoles? (j : Json) : Option (List String) :=
  match j.field? "realm_access" with
  | none => none
  | some ra =>
      match ra.field? "roles" with
      | some (.arr xs) => decodeStringList xs
      | _ => none

/-- Modelled from the spec: `auth.rs` wraps the introspection response's
extension fields as an arbitrary `serde_value::Value` (so any extension
parses), while `main.rs` consumes them through `auth::extensions::Token`; the
declaration bridging the two (`pub mod extensions` and the `Value`-to-`Token`
step) is not present in the snapshot.  Per the spec's role-claim contract,
"absent or malformed extensions yield zero roles (not an error)": a
well-formed keybase-dialect extension contributes its `realm_access.roles`
list, anything else contributes no roles. -/
def tokenRoles (j : Json) : List String :=
  (keybaseRoles? j).getD []

/-! ## Header names

hyper stores header names lowercase; `HOST` and `AUTHORIZATION` come from
`hyper::header`. -/

def HOST : String := "host"

def AUTHORIZATION : String := "authorization"

def FORWARDED : String := "forwarded"

/-- Modelled from the spec: the `header` module (`src/header.rs`) declaring
the trusted header names is not in the snapshot; per the spec's trusted-header
contract the names are `X-User-Id`, `X-User-Name`, `X-User-Role` (lowercased
by hyper's header-name normalisation). -/
def X_USER_ID : String := "x-user-id"

/-- Modelled from the spec: see `X_USER_ID`. -/
def X_USER_NAME : String := "x-user-name"

/-- Modelled from the spec: see `X_USER_ID`. -/
def X_USER_ROLE : String := "x-user-role"

/-! ## Bearer-token extraction and introspection (`auth.rs`) -/

/-- The code points Rust's `char::is_whitespace` (Unicode `White_Space`)
accepts; `str::split_whitespace` splits on these. -/
def rustWhitespaceCodes : List Nat :=
  [0x09, 0x0A, 0x0B, 0x0C, 0x0D, 0x20, 0x85, 0xA0, 0x1680,
   0x2000, 0x2001, 0x2002, 0x2003, 0x2004, 0x2005, 0x2006, 0x2007,
   0x2008, 0x2009, 0x200A, 0x2028, 0x2029, 0x202F, 0x205F, 0x3000]

/-- Rust `char::is_whitespace`. -/
def isRustWhitespace (c : Char) : Bool :=
  rustWhitespaceCodes.contains c.toNat

/-- Helper for `splitWhitespace`: `acc` holds the current field reversed. -/
def splitWsAux : List Char → List Char → List String
  | [], acc => if acc.isEmpty then [] else [String.mk acc.reverse]
  | c :: cs, acc =>
      if isRustWhitespace c then
        if acc.isEmpty then splitWsAux cs []
        else String.mk acc.reverse :: splitWsAux cs []
      else splitWsAux cs (c :: acc)

/-- Rust `str::split_whitespace`: the maximal non-whitespace fields, in
order (empty fields never occur). -/
def splitWhitespace (s : String) : List String :=
  splitWsAux s.toList []

/-- `auth::extract_access_token`: read the `Authorization` header, require it
to be UTF-8, take the first two whitespace-separated fields as scheme and
token, and accept the token only when the scheme is `token` or `bearer`
ASCII-case-insensitively. -/
def extract_access_token (request : Request) : Option String :=
  match getHeader request.headers AUTHORIZATION with
  | none => none
  | some .undecodable => none
  | some (.text auth) =>
      match splitWhitespace auth with
      | kind :: token :: _ =>
          if !asciiEqCI kind "token" && !asciiEqCI kind "bearer" then none
          else some token
      | _ => none

/-- The fields of the token-introspection response the handler consumes
(`StandardTokenIntrospectionResponse`): the `active` flag, the optional
`sub` and `username` (`preferred_username`) claims, and the extension
fields (`ExtraTokenFields`). -/
structure IntrospectionResponse where
  active : Bool
  sub : Option String
  username : Option String
  extra : Json

/-- `auth::verify_access_token`.  The introspection HTTP exchange is an
oracle `introspect`; a transport/parse failure is its `error` case.  `none`
means "unauthenticated" (no token, or token not active); a transport failure
propagates as an error. -/
def verify_access_token (introspect : String → Except Unit IntrospectionResponse)
    (request : Request) : Except Unit (Option IntrospectionResponse) :=
  match extract_access_token request with
  | none => .ok none
  | some access_token =>
      match introspect access_token with
      | .error e => .error e
      | .ok introspection =>
          if !introspection.active then .ok none
          else .ok (some introspection)

/-! ## The request handler (`main.rs`) -/

/-- Byte-level validity test of `http::HeaderValue::from_str` (`\t`, or any
byte that is `≥ 32` and not `127`; all bytes of a non-ASCII UTF-8 character
are `≥ 128` and hence valid). -/
def validHeaderValue (s : String) : Bool :=
  s.toList.all (fun c => c == '\t' || (decide (32 ≤ c.toNat) && c.toNat != 127))

/-- `str::parse::<HeaderValue>()` as used during identity injection. -/
def parseHeaderValue (s : String) : Except Unit HVal :=
  if validHeaderValue s then .ok (.text s) else .error ()

/-- `main::remove_dangerous_headers`: the headers the handler strips from the
inbound request before anything is forwarded.  (The source removes `HOST`,
`AUTHORIZATION`, `X_USER_ID` and `X_USER_NAME`; it has no removal of
`X_USER_ROLE`.) -/
def remove_dangerous_headers (request : Request) : Request :=
  let headers := request.headers
  let headers := removeHeader headers HOST
  let headers := removeHeader headers AUTHORIZATION
  let headers := removeHeader headers X_USER_ID
  let headers := removeHeader headers X_USER_NAME
  { request with headers := headers }

/-- The string `main::create_upstream_request` renders for the client address
(`Display` for V4; quoted `Display` for V6). -/
def renderForAddr : SockAddr → String
  | .v4 rendered => rendered
  | .v6 rendered => "\"" ++ rendered ++ "\""

/-- `main::create_upstream_request`: convert the request for the upstream
client (URI, version and headers carry over) and insert the
`Forwarded: for=<addr>` header. -/
def create_upstream_request (request : Request) (client_addr : SockAddr) : Request :=
  let forwarded := "for=" ++ renderForAddr client_addr
  { request with headers := insertHeader request.headers FORWARDED (.text forwarded) }

/-- Appending the role claims (the loop of
`main::enrich_request_with_token_info`): one `X-User-Role` per role, roles
that fail header-value parsing are skipped (`continue`). -/
def appendRoleHeaders (headers : Headers) (roles : List String) : Headers :=
  roles.foldl
    (fun hs role =>
      match parseHeaderValue role with
      | .ok v => appendHeader hs X_USER_ROLE v
      | .error _ => hs)
    headers

/-- `main::enrich_request_with_token_info`: inject `X-User-Id` from `sub` and
`X-User-Name` from `username` (either value failing header-value parsing
aborts with an error, via `?`), then append the role headers. -/
def enrich_request_with_token_info (request : Request)
    (token_info : IntrospectionResponse) : Except Unit Request :=
  let step1 : Except Unit Headers :=
    match token_info.sub with
    | some user_id =>
        match parseHeaderValue user_id with
        | .error e => .error e
        | .ok v => .ok (insertHeader request.headers X_USER_ID v)
    | none => .ok request.headers
  match step1 with
  | .error e => .error e
  | .ok headers1 =>
    let step2 : Except Unit Headers :=
      match token_info.username with
      | some username =>
          match parseHeaderValue username with
          | .error e => .error e
          | .ok v => .ok (insertHeader headers1 X_USER_NAME v)
      | none => .ok headers1
    match step2 with
    | .error e => .error e
    | .ok headers2 =>
        .ok { request with headers := appendRoleHeaders headers2 (tokenRoles token_info.extra) }

/-- Character-level validation of `http::uri::Authority::from_str` as invoked
by `server.upstream.parse()`: a non-empty string of authority characters is
accepted and kept verbatim. -/
def authorityChar (c : Char) : Bool :=
  c.isAlphanum ||
    (['-', '.', '_', '~', '!', '$', '&', '\'', '(', ')', '*', '+', ',',
      ';', '=', ':', '[', ']', '@', '%'].contains c)

/-- `server.upstream.parse::<Authority>()`. -/
def parseAuthority (s : String) : Except Unit String :=
  if s.length != 0 && s.toList.all authorityChar then .ok s else .error ()

/-- The per-connection state of `main::RequestHandler`. -/
structure HandlerCtx where
  listen_addr : SockAddr
  client_addr : SockAddr
  sni_hostname : Option String

/-- The configuration shared through `main::App` that the handler reads. -/
structure App where
  servers : List Server

/-- `RequestHandler::extract_host_name`: the SNI hostname when present,
otherwise the `Host` header up to the first `:` (missing or non-UTF-8 `Host`
is an error). -/
def extract_host_name (ctx : HandlerCtx) (request : Request) : Except Unit String :=
  match ctx.sni_hostname with
  | some sni_hostname => .ok sni_hostname
  | none =>
      match getHeader request.headers HOST with
      | none => .error ()
      | some .undecodable => .error ()
      | some (.text host) => .ok (String.mk (host.toList.takeWhile (fun c => c != ':')))

/-- The upstream response as seen through `reqwest` (status and headers; the
body is streamed through unchanged). -/
structure UpstreamResponse where
  status : Nat
  headers : Headers

/-- The forwarding tail of `RequestHandler::proxy_request` (everything after
the authentication gate): upstream URI rewrite, header hygiene, `Forwarded`
header, identity injection, upstream execution and response mirroring.  The
upstream executor is an oracle (`execute`); its `error` case is an
upstream-transport failure.  The first result component mirrors the Rust
`Result<Response<Body>>`; the second records the request handed to
`self.app.http.execute`, if execution was reached (`none` = no upstream call
was made). -/
def forward_request (server : Server) (ctx : HandlerCtx)
    (execute : Request → Except Unit UpstreamResponse)
    (request : Request) (token_info : Option IntrospectionResponse) :
    Except Unit Resp × Option Request :=
  match parseAuthority server.upstream with
  | .error e => (.error e, none)
  | .ok upstream_authority =>
    let upstream_scheme := if server.upstream_tls then "https" else "http"
    let http_version := request.version
    -- Uri::from_parts: scheme and authority are both set and the inbound
    -- path-and-query is kept unchanged, so rebuilding cannot fail.
    let request1 := { request with uri :=
      { request.uri with scheme := some upstream_scheme
                         authority := some upstream_authority } }
    let request2 := remove_dangerous_headers request1
    let upstream_request := create_upstream_request request2 ctx.client_addr
    let enriched :=
      match token_info with
      | some token_info => enrich_request_with_token_info upstream_request token_info
      | none => .ok upstream_request
    match enriched with
    | .error e => (.error e, none)
    | .ok upstream_request =>
      match execute upstream_request with
      | .error e => (.error e, some upstream_request)
      | .ok upstream_response =>
          (.ok { status := upstream_response.status
                 version := http_version
                 headers := upstream_response.headers },
           some upstream_request)

/-- `RequestHandler::proxy_request`: host resolution (`400` on failure),
virtual-host routing (`400` when no server matches), the public-route test,
the authentication gate (`401` when unauthenticated, an error on
introspection-transport failure), then `forward_request`.  The OIDC
introspection exchange is an oracle (`introspect`); its `error` case is the
introspection-transport failure. -/
def proxy_request (app : App) (ctx : HandlerCtx)
    (introspect : String → Except Unit IntrospectionResponse)
    (execute : Request → Except Unit UpstreamResponse)
    (request : Request) : Except Unit Resp × Option Request :=
  match extract_host_name ctx request with
  | .error _ => (.ok (mkResponse 400), none)
  | .ok host_name =>
  match app.servers.find? (fun server =>
      server.listen == ctx.listen_addr && asciiEqCI server.name host_name) with
  | none => (.ok (mkResponse 400), none)
  | some server =>
  if server.is_public_route request.uri then
    forward_request server ctx execute request none
  else
    match verify_access_token introspect request with
    | .error e => (.error e, none)
    | .ok none => (.ok (mkResponse 401), none)
    | .ok (some token_info) => forward_request server ctx execute request (some token_info)

/-- `RequestHandler::call` (the `Service` impl): run `proxy_request` and turn
any error into a synthetic `500` response. -/
def call (app : App) (ctx : HandlerCtx)
    (introspect : String → Except Unit IntrospectionResponse)
    (execute : Request → Except Unit UpstreamResponse)
    (request : Request) : Resp × Option Request :=
  match proxy_request app ctx introspect execute request with
  | (.ok response, upstream) => (response, upstream)
  | (.error _, upstream) => (mkResponse 500, upstream)

/-! ## Certificate resolver (`tls_manager.rs`)

`CertResolver` keys a map by `unicase::Ascii` server names; registration
first validates the name with `webpki::DnsNameRef::try_from_ascii_str`.  The
embedding models webpki's `is_valid_dns_id` (reference role, no wildcards)
and the map as an association list with case-insensitive keys.  A
`CertifiedKey` is abstracted by a numeric identity. -/

/-- The per-label scanning state of webpki's `is_valid_dns_id`. -/
structure DnsSt where
  labelLen : Nat
  allNumeric : Bool
  endsHyphen : Bool
deriving DecidableEq, Repr

/-- One character step of webpki's `is_valid_dns_id`: hyphens must not start
a label, labels are at most 63 characters, a dot must not follow a hyphen or
an empty label; any character outside `[A-Za-z0-9_.-]` rejects. -/
def dnsStep (st : DnsSt) (c : Char) : Option DnsSt :=
  if c = '-' then
    if st.labelLen = 0 then none
    else if st.labelLen + 1 > 63 then none
    else some ⟨st.labelLen + 1, false, true⟩
  else if '0' ≤ c ∧ c ≤ '9' then
    if st.labelLen + 1 > 63 then none
    else some ⟨st.labelLen + 1, st.labelLen = 0 || st.allNumeric, false⟩
  else if ('a' ≤ c ∧ c ≤ 'z') ∨ ('A' ≤ c ∧ c ≤ 'Z') ∨ c = '_' then
    if st.labelLen + 1 > 63 then none
    else some ⟨st.labelLen + 1, false, false⟩
  else if c = '.' then
    if st.endsHyphen then none
    else if st.labelLen = 0 then none
    else some ⟨0, st.allNumeric, false⟩
  else none

/-- webpki's `DnsNameRef::try_from_ascii_str` validity test: at most 253
characters, non-empty, every character accepted by `dnsStep`, the name does
not end in a hyphen, and the last label is not all-numeric. -/
def validDnsName (s : String) : Bool :=
  if s.toList.length > 253 then false
  else if s.toList.isEmpty then false
  else
    match s.toList.foldl (fun acc c => acc.bind (fun st => dnsStep st c)) (some ⟨0, false, false⟩) with
    | none => false
    | some st => !st.endsHyphen && !st.allNumeric

/-- The `CertResolver` map: server name (as registered) to certified key. -/
abbrev CertStore := List (String × Nat)

/-- The case-insensitive lookup of `HashMap<Ascii<…>, _>::get`. -/
def CertStore.get (store : CertStore) (name : String) : Option Nat :=
  (store.find? (fun e => asciiEqCI e.1 name)).map (fun e => e.2)

/-- The case-insensitive replacement of `HashMap<Ascii<…>, _>::insert`. -/
def CertStore.insert (store : CertStore) (name : String) (key : Nat) : CertStore :=
  store.filter (fun e => !asciiEqCI e.1 name) ++ [(name, key)]

/-- `CertResolver::add_certified_key`: reject a name that is not a valid
ASCII DNS name, otherwise register (replacing any same-name entry). -/
def add_certified_key (store : CertStore) (server_name : String)
    (certified_key : Nat) : Except Unit CertStore :=
  match validDnsName server_name with
  | false => .error ()
  | true => .ok (store.insert server_name certified_key)

/-- `CertResolver::resolve` (the `ResolvesServerCert` impl): look the
`ClientHello`'s SNI (`none` when the extension is absent) up
case-insensitively. -/
def resolve (store : CertStore) (sni : Option String) : Option Nat :=
  match sni with
  | none => none
  | some server_name => store.get server_name

/-! ## The introspection HTTP transport (`auth.rs`, `auth/async_client.rs`)

`verify_access_token` performs the introspection exchange through
`request_async(async_http_client)`.  The name `async_http_client` in
`auth.rs` is bound by `use openidconnect::reqwest::async_http_client` — the
stock transport, which builds a fresh `reqwest::Client` (with redirects
disabled) on every call; the repository's own FIXME on that line records
that it "does not reuse http client".  The repository's pooling variant
(`auth/async_client.rs`, a `lazy_static` client built once, redirects
disabled) is passed only to `CoreProviderMetadata::discover_async`.  The
embedding gives each transport its observable client-construction
behaviour: a call maps the number of clients constructed so far to the new
count, the identity of the client serving the call, and that client's
redirect configuration. -/

/-- Whether a constructed `reqwest::Client` follows redirects. -/
structure ClientConfig where
  followRedirects : Bool
deriving DecidableEq, Repr

/-- One call through `openidconnect::reqwest::async_http_client`: construct a
fresh client (redirect policy `none`), use it. -/
def stockAsyncHttpClientCall (constructedSoFar : Nat) : Nat × Nat × ClientConfig :=
  (constructedSoFar + 1, constructedSoFar, ⟨false⟩)

/-- One call through the repository's `async_client::async_http_client`: the
`lazy_static` client is constructed on first use (redirect policy `none`)
and reused afterwards. -/
def pooledAsyncHttpClientCall (constructedSoFar : Nat) : Nat × Nat × ClientConfig :=
  (max constructedSoFar 1, 0, ⟨false⟩)

/-- The transport `verify_access_token` actually passes to `request_async`
for token introspection. -/
def introspectionTransportCall : Nat → Nat × Nat × ClientConfig :=
  stockAsyncHttpClientCall

/-- Number of clients constructed after `n` introspection calls. -/
def clientsAfterIntrospections : Nat → Nat
  | 0 => 0
  | n + 1 => (introspectionTransportCall (clientsAfterIntrospections n)).1

/-- Identity of the client serving the `n`-th introspection call (0-based). -/
def introspectionClientUsed (n : Nat) : Nat :=
  (introspectionTransportCall (clientsAfterIntrospections n)).2.1

/-! ## Concrete fixtures

A small configuration and concrete requests/oracles, used to evaluate the
embedding at specific inputs (witnesses and counterexamples). -/

/-- A virtual host `api.example` on `127.0.0.1:8080` with public route
`/healthz` and plaintext upstream `backend:9000`. -/
def exampleServer : Server :=
  { name := "api.example"
    listen := .v4 "127.0.0.1:8080"
    upstream := "backend:9000"
    upstream_tls := false
    public_routes := [strRegex "/healthz"] }

def exampleApp : App := { servers := [exampleServer] }

def exampleCtx : HandlerCtx :=
  { listen_addr := .v4 "127.0.0.1:8080"
    client_addr := .v4 "1.2.3.4:5555"
    sni_hostname := none }

/-- A public-route request carrying a forged `X-User-Role` header. -/
def reqForgedRole : Request :=
  { uri := { scheme := none, authority := none, path := "/healthz", query := none }
    version := .http11
    headers := [("host", .text "api.example"), ("x-user-role", .text "fake-admin")] }

/-- The upstream request the handler builds for `reqForgedRole` (computed by
the pipeline; note the forged role header surviving). -/
def upstreamForged : Request :=
  { uri := { scheme := some "http", authority := some "backend:9000"
             path := "/healthz", query := none }
    version := .http11
    headers := [("x-user-role", .text "fake-admin"),
                ("forwarded", .text "for=1.2.3.4:5555")] }

/-- A private-route request without an `Authorization` header. -/
def reqNoToken : Request :=
  { uri := { scheme := none, authority := none, path := "/v1/me", query := none }
    version := .http11
    headers := [("host", .text "api.example")] }

/-- A private-route request with bearer token `t`. -/
def reqBearer : Request :=
  { uri := { scheme := none, authority := none, path := "/v1/me", query := some "a=1" }
    version := .http11
    headers := [("host", .text "api.example"), ("authorization", .text "Bearer t")] }

/-- An HTTP/1.0 request without a `Host` header. -/
def reqNoHostHttp10 : Request :=
  { uri := { scheme := none, authority := none, path := "/x", query := none }
    version := .http10
    headers := [] }

/-- An introspection oracle whose transport always fails. -/
def introspectFail : String → Except Unit IntrospectionResponse :=
  fun _ => .error ()

/-- An introspection oracle returning an active token for `alice`. -/
def introspectActive : String → Except Unit IntrospectionResponse :=
  fun _ =>
    .ok { active := true
          sub := some "u1"
          username := some "alice"
          extra := .obj [("realm_access", .obj [("roles", .arr [.str "admin", .str "ops"])])] }

/-- An introspection oracle returning an inactive token. -/
def introspectInactive : String → Except Unit IntrospectionResponse :=
  fun _ => .ok { active := false, sub := none, username := none, extra := .null }

/-- An introspection oracle returning an active token whose `sub` is not a
valid header value (it contains a line feed). -/
def introspectBadSub : String → Except Unit IntrospectionResponse :=
  fun _ => .ok { active := true, sub := some "u\n1", username := none, extra := .null }

/-- An upstream executor answering 200 with one header. -/
def executeOk : Request → Except Unit UpstreamResponse :=
  fun _ => .ok { status := 200, headers := [("server", .text "up")] }

/-- An introspection result whose extension field is well-typed JSON but not
the keybase role-claim shape. -/
def tokenInfoMalformedExtra : IntrospectionResponse :=
  { active := true, sub := some "u1", username := none, extra := .obj [("scope", .str "email")] }

/-! ## Helper lemmas -/

theorem parseAuthority_ok {s t : String} (h : parseAuthority s = .ok t) : t = s := by
  unfold parseAuthority at h
  split at h
  · injection h with h
    exact h.symm
  · cases h

theorem countHeader_append (a b : Headers) (m : String) :
    countHeader (a ++ b) m = countHeader a m + countHeader b m := by
  simp [countHeader, List.filter_append]

theorem countHeader_removeHeader_ne (hs : Headers) (n m : String) (hnm : ¬n = m) :
    countHeader (removeHeader hs n) m = countHeader hs m := by
  have hmn : ¬m = n := fun h => hnm h.symm
  induction hs with
  | nil => rfl
  | cons e tl ih =>
    by_cases he : e.1 = m
    · simp [removeHeader, countHeader, List.filter_cons, he, hmn] at ih ⊢
      exact ih
    · by_cases hen : e.1 = n
      · simp [removeHeader, countHeader, List.filter_cons, he, hen, hnm, hmn] at ih ⊢
        exact ih
      · simp [removeHeader, countHeader, List.filter_cons, he, hen] at ih ⊢
        exact ih

theorem countHeader_insertHeader_ne (hs : Headers) (n m : String) (v : HVal) (hnm : ¬n = m) :
    countHeader (insertHeader hs n v) m = countHeader hs m := by
  have h1 : countHeader [(n, v)] m = 0 := by
    simp [countHeader, List.filter_cons, hnm]
  rw [insertHeader, countHeader_append, h1, countHeader_removeHeader_ne hs n m hnm]
  exact Nat.add_zero _

theorem asciiEqCI_iff {a b : String} :
    asciiEqCI a b = true ↔ a.toList.map lowerChar = b.toList.map lowerChar := by
  simp [asciiEqCI]

theorem asciiEqCI_symm (a b : String) : asciiEqCI a b = asciiEqCI b a := by
  unfold asciiEqCI
  exact Bool.beq_comm

theorem asciiEqCI_congr_right {b c : String} (h : asciiEqCI b c = true) (a : String) :
    asciiEqCI a b = asciiEqCI a c := by
  have hl := asciiEqCI_iff.mp h
  unfold asciiEqCI
  rw [hl]

theorem enrich_ok_shape {r : Request} {ti : IntrospectionResponse} {r' : Request}
    (h : enrich_request_with_token_info r ti = .ok r') :
    ∃ hs, r' = { r with headers := hs } := by
  simp only [enrich_request_with_token_info] at h
  split at h
  · cases h
  · split at h
    · cases h
    · injection h with h
      exact ⟨_, h.symm⟩

theorem enrich_ok_of_valid (r : Request) (ti : IntrospectionResponse)
    (hsub : ∀ s, ti.sub = some s → validHeaderValue s = true)
    (husr : ∀ s, ti.username = some s → validHeaderValue s = true) :
    ∃ r', enrich_request_with_token_info r ti = .ok r' := by
  simp only [enrich_request_with_token_info]
  cases hs : ti.sub with
  | some user_id =>
      simp only [parseHeaderValue, hsub user_id hs, if_true]
      cases hu : ti.username with
      | some username => simp [parseHeaderValue, husr username hu]
      | none => simp
  | none =>
      cases hu : ti.username with
      | some username => simp [parseHeaderValue, husr username hu]
      | none => simp

theorem enrich_roleCount {r : Request} {ti : IntrospectionResponse} {r' : Request}
    (h : enrich_request_with_token_info r ti = .ok r')
    (hroles : tokenRoles ti.extra = []) :
    countHeader r'.headers X_USER_ROLE = countHeader r.headers X_USER_ROLE := by
  have hid : ¬X_USER_ID = X_USER_ROLE := by decide
  have hname : ¬X_USER_NAME = X_USER_ROLE := by decide
  simp only [enrich_request_with_token_info] at h
  split at h
  · cases h
  next headers1 h1 =>
    split at h
    · cases h
    next headers2 h2 =>
      injection h with h
      have hc1 : countHeader headers1 X_USER_ROLE = countHeader r.headers X_USER_ROLE := by
        split at h1
        · split at h1
          · cases h1
          · injection h1 with h1
            rw [← h1, countHeader_insertHeader_ne _ _ _ _ hid]
        · injection h1 with h1
          rw [← h1]
      have hc2 : countHeader headers2 X_USER_ROLE = countHeader headers1 X_USER_ROLE := by
        split at h2
        · split at h2
          · cases h2
          · injection h2 with h2
            rw [← h2, countHeader_insertHeader_ne _ _ _ _ hname]
        · injection h2 with h2
          rw [← h2]
      rw [← h]
      simp only [hroles, appendRoleHeaders, List.foldl_nil]
      rw [hc2, hc1]

theorem forward_request_upstream {server : Server} {ctx : HandlerCtx}
    {execute : Request → Except Unit UpstreamResponse} {request : Request}
    {ti : Option IntrospectionResponse} {res : Except Unit Resp} {u : Request}
    (h : forward_request server ctx execute request ti = (res, some u)) :
    u.uri.scheme = some (if server.upstream_tls then "https" else "http") ∧
    u.uri.authority = some server.upstream ∧
    u.uri.path = request.uri.path ∧
    u.uri.query = request.uri.query ∧
    u.version = request.version := by
  simp only [forward_request] at h
  split at h
  · simp at h
  rename_i upstream_authority hpa
  have hauth : upstream_authority = server.upstream := parseAuthority_ok hpa
  subst hauth
  split at h
  · simp at h
  rename_i upstream_request henr
  have hu : upstream_request = u := by
    split at h
    · injection h with h1 h2
      injection h2
    · injection h with h1 h2
      injection h2
  subst hu
  split at henr
  · obtain ⟨hs, hshape⟩ := enrich_ok_shape henr
    subst hshape
    simp [create_upstream_request, remove_dangerous_headers]
  · injection henr with henr
    rw [← henr]
    simp [create_upstream_request, remove_dangerous_headers]

theorem forward_request_ok_version {server : Server} {ctx : HandlerCtx}
    {execute : Request → Except Unit UpstreamResponse} {request : Request}
    {ti : Option IntrospectionResponse} {resp : Resp} {up : Option Request}
    (h : forward_request server ctx execute request ti = (.ok resp, up)) :
    resp.version = request.version ∧ ∃ u, up = some u := by
  simp only [forward_request] at h
  split at h
  · simp at h
  split at h
  · simp at h
  split at h
  · simp at h
  · injection h with h1 h2
    injection h1 with h1
    rw [← h1, ← h2]
    exact ⟨rfl, _, rfl⟩

theorem CertStore.get_insert (store : CertStore) (name sni : String) (k : Nat)
    (h : asciiEqCI sni name = true) :
    CertStore.get (CertStore.insert store name k) sni = some k := by
  unfold CertStore.insert CertStore.get
  rw [List.find?_append]
  have hsym : asciiEqCI name sni = true := by rw [asciiEqCI_symm]; exact h
  have hnone :
      (store.filter (fun e => !asciiEqCI e.1 name)).find? (fun e => asciiEqCI e.1 sni) = none := by
    rw [List.find?_eq_none]
    intro e he
    have hmem := List.of_mem_filter he
    have hne : asciiEqCI e.1 name = false := by simpa using hmem
    have hcong : asciiEqCI e.1 name = asciiEqCI e.1 sni := asciiEqCI_congr_right hsym e.1
    simp [← hcong, hne]
  rw [hnone]
  simp [List.find?, hsym]

theorem CertStore.get_no_match (store : CertStore) (sni : String)
    (h : ∀ e ∈ store, asciiEqCI e.1 sni = false) :
    CertStore.get store sni = none := by
  unfold CertStore.get
  rw [List.find?_eq_none.mpr]
  · rfl
  · intro e he
    simp [h e he]

theorem asciiEqCI_refl (a : String) : asciiEqCI a a = true := by
  simp [asciiEqCI]

theorem enrich_error_of_bad_sub {r : Request} {ti : IntrospectionResponse} {uid : String}
    (hsub : ti.sub = some uid) (hbad : validHeaderValue uid = false) :
    enrich_request_with_token_info r ti = .error () := by
  simp [enrich_request_with_token_info, hsub, parseHeaderValue, hbad]

theorem enrich_error_of_bad_username {r : Request} {ti : IntrospectionResponse} {un : String}
    (hsub : ∀ s, ti.sub = some s → validHeaderValue s = true)
    (husr : ti.username = some un) (hbad : validHeaderValue un = false) :
    enrich_request_with_token_info r ti = .error () := by
  cases hs : ti.sub with
  | some uid =>
      simp [enrich_request_with_token_info, hs, husr, parseHeaderValue, hsub uid hs, hbad]
  | none =>
      simp [enrich_request_with_token_info, hs, husr, parseHeaderValue, hbad]

theorem forward_request_error_of_enrich {server : Server} {ctx : HandlerCtx}
    {execute : Request → Except Unit UpstreamResponse} {request : Request}
    {ti : IntrospectionResponse}
    (henr : ∀ u, enrich_request_with_token_info u ti = .error ()) :
    ∃ e, forward_request server ctx execute request (some ti) = (.error e, none) := by
  simp only [forward_request]
  split
  · exact ⟨_, rfl⟩
  · rw [henr]
    exact ⟨(), rfl⟩

/-! ## Claim theorems -/

/-- C1: the spec claims the five client-supplied headers `Host`,
`Authorization`, `X-User-Id`, `X-User-Name`, `X-User-Role` are all removed
before any forwarding.  The code removes only the first four: at the failing
input (a public-route request carrying `X-User-Role: fake-admin`),
`remove_dangerous_headers` keeps the forged `X-User-Role` value and the
request handed to the upstream executor still carries it. -/
theorem C1_clientRoleHeaderReachesUpstream :
    countHeader (remove_dangerous_headers reqForgedRole).headers X_USER_ROLE = 1 ∧
    (call exampleApp exampleCtx introspectFail executeOk reqForgedRole).2 =
      some { uri := { scheme := some "http", authority := some "backend:9000"
                      path := "/healthz", query := none }
             version := .http11
             headers := [("x-user-role", .text "fake-admin"),
                         ("forwarded", .text "for=1.2.3.4:5555")] } := by
  exact ⟨rfl, rfl⟩

/-- C4: the claim says every token-introspection HTTP request runs through
one HTTP client reused across all calls.  Refuted on the code: the transport
handed to `request_async` builds a fresh client on every call (two
introspections construct two clients and use two distinct ones); only the
redirect half of the claim (redirects disabled on the constructed client)
holds. -/
theorem C4_introspectionClientPerCall :
    clientsAfterIntrospections 2 = 2 ∧
    introspectionClientUsed 0 ≠ introspectionClientUsed 1 ∧
    ∀ n, ((introspectionTransportCall n).2.2).followRedirects = false := by
  exact ⟨rfl, by decide, fun n => rfl⟩

/-- C5 (counterexample): an HTTP/1.0 request that triggers the synthetic
`400` (no `Host` header, no SNI) is answered with the builder-default
version HTTP/1.1, not with the client's version, refuting the claim that
every response carries the client's request version. -/
theorem C5_versionCounterexample :
    (call exampleApp exampleCtx introspectFail executeOk reqNoHostHttp10).1.version =
      Version.http11 ∧
    reqNoHostHttp10.version = Version.http10 ∧
    Version.http11 ≠ Version.http10 := by
  exact ⟨rfl, rfl, by decide⟩

/-- C5 (amended): only the proxied upstream response mirrors the client's
request version; a success response produced without an upstream call (the
synthetic `400`/`401`) and the synthetic `500` carry the response builder's
default version HTTP/1.1. -/
theorem C5_responseVersionPolicy (app : App) (ctx : HandlerCtx)
    (introspect : String → Except Unit IntrospectionResponse)
    (execute : Request → Except Unit UpstreamResponse)
    (request : Request) :
    (∀ resp u, proxy_request app ctx introspect execute request = (.ok resp, some u) →
        resp.version = request.version) ∧
    (∀ resp, proxy_request app ctx introspect execute request = (.ok resp, none) →
        resp.version = Version.http11) ∧
    (∀ e u, proxy_request app ctx introspect execute request = (.error e, u) →
        (call app ctx introspect execute request).1.version = Version.http11) := by
  refine ⟨?_, ?_, ?_⟩
  · intro resp u h
    unfold proxy_request at h
    split at h
    · simp at h
    · split at h
      · simp at h
      · split at h
        · exact (forward_request_ok_version h).1
        · split at h
          · simp at h
          · simp at h
          · exact (forward_request_ok_version h).1
  · intro resp h
    unfold proxy_request at h
    split at h
    · injection h with h1 h2
      injection h1 with h1
      rw [← h1]
      rfl
    · split at h
      · injection h with h1 h2
        injection h1 with h1
        rw [← h1]
        rfl
      · split at h
        · obtain ⟨hv, u, hu⟩ := forward_request_ok_version h
          exact Option.noConfusion hu
        · split at h
          · simp at h
          · injection h with h1 h2
            injection h1 with h1
            rw [← h1]
            rfl
          · obtain ⟨hv, u, hu⟩ := forward_request_ok_version h
            exact Option.noConfusion hu
  · intro e u h
    simp [call, h, mkResponse]

/-- C5 (witness): the synthetic `401` produced for `reqNoToken` is covered by
the amended version policy. -/
theorem C5_responseVersionPolicy_witness :
    (mkResponse 401).version = Version.http11 :=
  (C5_responseVersionPolicy exampleApp exampleCtx introspectFail executeOk reqNoToken).2.1
    (mkResponse 401) rfl

/-- C8: a request is classified public exactly when some configured pattern,
compiled anchored as `^p$`, matches the whole URI path; the query string
plays no part in the classification. -/
theorem C8_publicRouteIffAnchoredMatch (server : Server) (uri : Uri) :
    (server.is_public_route uri = true ↔
      ∃ p ∈ server.public_routes, reFullMatch p uri.path = true) ∧
    (∀ q, server.is_public_route { uri with query := q } = server.is_public_route uri) := by
  constructor
  · simp [Server.is_public_route, regexSetIsMatch, List.any_eq_true]
  · intro q
    rfl

/-- C8 (witness): `/healthz` with a query string is public under the example
configuration. -/
theorem C8_publicRouteIffAnchoredMatch_witness :
    exampleServer.is_public_route
      { scheme := none, authority := none, path := "/healthz", query := some "x=1" } = true := by
  refine ((C8_publicRouteIffAnchoredMatch exampleServer
    { scheme := none, authority := none, path := "/healthz", query := some "x=1" }).1).mpr ?_
  exact ⟨strRegex "/healthz", by simp [exampleServer], by decide⟩

/-- C9: bearer-token extraction yields a token exactly when the
`Authorization` header is present and UTF-8, its first whitespace-separated
field is `Bearer` or `Token` compared ASCII-case-insensitively, and a second
whitespace-separated field exists; the token is that second field. -/
theorem C9_bearerTokenExtraction (request : Request) (tok : String) :
    extract_access_token request = some tok ↔
      ∃ v, getHeader request.headers AUTHORIZATION = some (HVal.text v) ∧
        ∃ kind rest, splitWhitespace v = kind :: tok :: rest ∧
          (asciiEqCI kind "bearer" = true ∨ asciiEqCI kind "token" = true) := by
  unfold extract_access_token
  cases hga : getHeader request.headers AUTHORIZATION with
  | none => simp
  | some hv =>
    cases hv with
    | undecodable => simp
    | text v =>
      cases hsw : splitWhitespace v with
      | nil => simp [hsw]
      | cons kind tail =>
        cases tail with
        | nil => simp [hsw]
        | cons tok' rest =>
          by_cases hb : asciiEqCI kind "bearer" = true
          · simp only [hsw, hb]
            simp only [Bool.not_true, Bool.and_false, Bool.false_eq_true, if_false,
              Option.some.injEq, HVal.text.injEq, List.cons.injEq]
            simp [hsw]
            constructor
            · intro h
              exact ⟨kind, ⟨rfl, h⟩, Or.inl hb⟩
            · rintro ⟨k, ⟨hk, h⟩, _⟩
              exact h
          · by_cases ht : asciiEqCI kind "token" = true
            · simp [hsw, ht, hb]
              constructor
              · intro h
                exact ⟨kind, ⟨rfl, h⟩, Or.inr ht⟩
              · rintro ⟨k, ⟨hk, h⟩, _⟩
                exact h
            · simp [hsw, hb, ht]

/-- C2: for a routed, non-public request, a missing/malformed bearer token
or an inactive introspection result yields a synthetic `401` and no upstream
call; an introspection transport failure yields a synthetic `500` and no
upstream call. -/
theorem C2_nonPublicAuthGate (app : App) (ctx : HandlerCtx)
    (introspect : String → Except Unit IntrospectionResponse)
    (execute : Request → Except Unit UpstreamResponse)
    (request : Request) (server : Server) (host_name : String)
    (hhost : extract_host_name ctx request = .ok host_name)
    (hfind : app.servers.find? (fun s =>
      s.listen == ctx.listen_addr && asciiEqCI s.name host_name) = some server)
    (hpriv : server.is_public_route request.uri = false) :
    (extract_access_token request = none →
      call app ctx introspect execute request = (mkResponse 401, none)) ∧
    (∀ tok r, extract_access_token request = some tok → introspect tok = .ok r →
      r.active = false →
      call app ctx introspect execute request = (mkResponse 401, none)) ∧
    (∀ tok, extract_access_token request = some tok → introspect tok = .error () →
      call app ctx introspect execute request = (mkResponse 500, none)) := by
  refine ⟨?_, ?_, ?_⟩
  · intro hx
    simp [call, proxy_request, hhost, hfind, hpriv, verify_access_token, hx]
  · intro tok r hx hi ha
    simp [call, proxy_request, hhost, hfind, hpriv, verify_access_token, hx, hi, ha]
  · intro tok hx hi
    simp [call, proxy_request, hhost, hfind, hpriv, verify_access_token, hx, hi]

/-- C2 (witness): under the example configuration, `GET /v1/me` without an
`Authorization` header is answered `401` with no upstream call. -/
theorem C2_nonPublicAuthGate_witness :
    call exampleApp exampleCtx introspectFail executeOk reqNoToken = (mkResponse 401, none) :=
  (C2_nonPublicAuthGate exampleApp exampleCtx introspectFail executeOk reqNoToken
    exampleServer "api.example" rfl rfl rfl).1 rfl

/-- C3: whenever a request routed to server `s` proceeds to forwarding, the
upstream request's URI has scheme `https`/`http` according to
`s.upstream_tls`, authority `s.upstream`, and the inbound path and query
unchanged. -/
theorem C3_upstreamUriRewrite (app : App) (ctx : HandlerCtx)
    (introspect : String → Except Unit IntrospectionResponse)
    (execute : Request → Except Unit UpstreamResponse)
    (request : Request) (server : Server) (host_name : String)
    (res : Except Unit Resp) (u : Request)
    (hhost : extract_host_name ctx request = .ok host_name)
    (hfind : app.servers.find? (fun s =>
      s.listen == ctx.listen_addr && asciiEqCI s.name host_name) = some server)
    (hrun : proxy_request app ctx introspect execute request = (res, some u)) :
    u.uri.scheme = some (if server.upstream_tls then "https" else "http") ∧
    u.uri.authority = some server.upstream ∧
    u.uri.path = request.uri.path ∧
    u.uri.query = request.uri.query := by
  simp only [proxy_request, hhost, hfind] at hrun
  split at hrun
  · obtain ⟨h1, h2, h3, h4, h5⟩ := forward_request_upstream hrun
    exact ⟨h1, h2, h3, h4⟩
  · split at hrun
    · simp at hrun
    · simp at hrun
    · obtain ⟨h1, h2, h3, h4, h5⟩ := forward_request_upstream hrun
      exact ⟨h1, h2, h3, h4⟩

/-- C3 (witness): the upstream request built for the public `/healthz`
request of the example configuration carries scheme `http`, authority
`backend:9000` and the unchanged path and query. -/
theorem C3_upstreamUriRewrite_witness :
    upstreamForged.uri.scheme = some (if exampleServer.upstream_tls then "https" else "http") ∧
    upstreamForged.uri.authority = some exampleServer.upstream ∧
    upstreamForged.uri.path = reqForgedRole.uri.path ∧
    upstreamForged.uri.query = reqForgedRole.uri.query :=
  C3_upstreamUriRewrite exampleApp exampleCtx introspectFail executeOk reqForgedRole
    exampleServer "api.example"
    (.ok { status := 200, version := .http11, headers := [("server", .text "up")] })
    upstreamForged rfl rfl rfl

/-- C6: an introspection response whose extension is absent or malformed (no
`realm_access.roles` list of strings) makes the handler inject zero
`X-User-Role` headers without failing the request on that account (the
identity values themselves being injectable). -/
theorem C6_malformedExtensionZeroRoles (r : Request) (ti : IntrospectionResponse)
    (hmal : keybaseRoles? ti.extra = none)
    (hsub : ∀ s, ti.sub = some s → validHeaderValue s = true)
    (husr : ∀ s, ti.username = some s → validHeaderValue s = true) :
    ∃ r', enrich_request_with_token_info r ti = .ok r' ∧
      countHeader r'.headers X_USER_ROLE = countHeader r.headers X_USER_ROLE := by
  obtain ⟨r', hok⟩ := enrich_ok_of_valid r ti hsub husr
  refine ⟨r', hok, ?_⟩
  exact enrich_roleCount hok (by simp [tokenRoles, hmal])

/-- C6 (witness): a well-typed extension without the keybase role shape
yields an enriched request with no additional `X-User-Role` header. -/
theorem C6_malformedExtensionZeroRoles_witness :
    ∃ r', enrich_request_with_token_info reqBearer tokenInfoMalformedExtra = .ok r' ∧
      countHeader r'.headers X_USER_ROLE = countHeader reqBearer.headers X_USER_ROLE :=
  C6_malformedExtensionZeroRoles reqBearer tokenInfoMalformedExtra rfl
    (fun s hs => by injection hs with hs; rw [← hs]; decide)
    (fun s hs => Option.noConfusion hs)

/-- C10: when introspection succeeds but the token's `sub` (or, with a
parseable `sub`, its `preferred_username`) is not a valid header value, the
request is answered with a synthetic `500` and no upstream call is made;
role values, in contrast, never fail the enrichment. -/
theorem C10_invalidIdentityValue (app : App) (ctx : HandlerCtx)
    (introspect : String → Except Unit IntrospectionResponse)
    (execute : Request → Except Unit UpstreamResponse)
    (request : Request) (server : Server) (host_name : String)
    (tok : String) (ti : IntrospectionResponse)
    (hhost : extract_host_name ctx request = .ok host_name)
    (hfind : app.servers.find? (fun s =>
      s.listen == ctx.listen_addr && asciiEqCI s.name host_name) = some server)
    (hpriv : server.is_public_route request.uri = false)
    (htok : extract_access_token request = some tok)
    (hintr : introspect tok = .ok ti)
    (hact : ti.active = true) :
    ((∃ uid, ti.sub = some uid ∧ validHeaderValue uid = false) →
      call app ctx introspect execute request = (mkResponse 500, none)) ∧
    ((∀ s, ti.sub = some s → validHeaderValue s = true) →
      (∃ un, ti.username = some un ∧ validHeaderValue un = false) →
      call app ctx introspect execute request = (mkResponse 500, none)) ∧
    (∀ (r : Request) (ti' : IntrospectionResponse),
      (∀ s, ti'.sub = some s → validHeaderValue s = true) →
      (∀ s, ti'.username = some s → validHeaderValue s = true) →
      ∃ r', enrich_request_with_token_info r ti' = .ok r') := by
  refine ⟨?_, ?_, fun r ti' h1 h2 => enrich_ok_of_valid r ti' h1 h2⟩
  · rintro ⟨uid, hsubid, hbad⟩
    have henr : ∀ u, enrich_request_with_token_info u ti = .error () :=
      fun u => enrich_error_of_bad_sub hsubid hbad
    obtain ⟨e, hfwd⟩ := @forward_request_error_of_enrich server ctx execute request ti henr
    simp [call, proxy_request, hhost, hfind, hpriv, verify_access_token,
      htok, hintr, hact, hfwd, mkResponse]
  · rintro hsub ⟨un, husr, hbad⟩
    have henr : ∀ u, enrich_request_with_token_info u ti = .error () :=
      fun u => enrich_error_of_bad_username hsub husr hbad
    obtain ⟨e, hfwd⟩ := @forward_request_error_of_enrich server ctx execute request ti henr
    simp [call, proxy_request, hhost, hfind, hpriv, verify_access_token,
      htok, hintr, hact, hfwd, mkResponse]

/-- C10 (witness): an active token whose `sub` contains a line feed turns
the example request into a synthetic `500` with no upstream call. -/
theorem C10_invalidIdentityValue_witness :
    call exampleApp exampleCtx introspectBadSub executeOk reqBearer = (mkResponse 500, none) :=
  (C10_invalidIdentityValue exampleApp exampleCtx introspectBadSub executeOk reqBearer
    exampleServer "api.example" "t"
    { active := true, sub := some "u\n1", username := none, extra := .null }
    rfl rfl rfl rfl rfl rfl).1 ⟨"u\n1", rfl, by decide⟩

/-- C9 (witness): `Authorization: Bearer t` yields the token `t`. -/
theorem C9_bearerTokenExtraction_witness :
    extract_access_token reqBearer = some "t" :=
  (C9_bearerTokenExtraction reqBearer "t").mpr
    ⟨"Bearer t", rfl, "Bearer", [], rfl, Or.inl (by decide)⟩

/-- C7: certificate registration rejects any name that is not a
syntactically valid ASCII DNS name and registers valid names
case-insensitively; resolving an SNI that is any ASCII-case variant of a
registered name returns the registered key; a second registration under the
same name makes resolution return the second key; and resolution returns
none when the SNI is absent or matches no registered name. -/
theorem C7_certResolver :
    (∀ (store : CertStore) (name : String) (k : Nat), validDnsName name = false →
      add_certified_key store name k = .error ()) ∧
    (∀ (store : CertStore) (name sni : String) (k : Nat), validDnsName name = true →
      asciiEqCI sni name = true →
      ∃ store', add_certified_key store name k = .ok store' ∧
        resolve store' (some sni) = some k) ∧
    (∀ (store store' store'' : CertStore) (name : String) (k1 k2 : Nat),
      add_certified_key store name k1 = .ok store' →
      add_certified_key store' name k2 = .ok store'' →
      resolve store'' (some name) = some k2) ∧
    (∀ store : CertStore, resolve store none = none) ∧
    (∀ (store : CertStore) (sni : String),
      (∀ e ∈ store, asciiEqCI e.1 sni = false) →
      resolve store (some sni) = none) := by
  refine ⟨?_, ?_, ?_, ?_, ?_⟩
  · intro store name k h
    simp [add_certified_key, h]
  · intro store name sni k hval hci
    refine ⟨store.insert name k, by simp [add_certified_key, hval], ?_⟩
    simp [resolve, CertStore.get_insert store name sni k hci]
  · intro store store' store'' name k1 k2 h1 h2
    have hs2 : store'' = store'.insert name k2 := by
      simp only [add_certified_key] at h2
      split at h2
      · cases h2
      · injection h2 with h2
        exact h2.symm
    rw [hs2]
    simp [resolve, CertStore.get_insert store' name name k2 (asciiEqCI_refl name)]
  · intro store
    rfl
  · intro store sni h
    simp [resolve, CertStore.get_no_match store sni h]

/-- C7 (witness): `bad!name` is rejected; `example.com` registered under key
`1` resolves for SNI `EXAMPLE.COM`; re-registering `example.com` with key
`2` makes it resolve to `2`; an absent SNI and an unknown name resolve to
none. -/
theorem C7_certResolver_witness :
    add_certified_key [] "bad!name" 1 = .error () ∧
    (∃ store', add_certified_key [] "example.com" 1 = .ok store' ∧
      resolve store' (some "EXAMPLE.COM") = some 1) ∧
    resolve [("example.com", 1)] (some "other.example") = none ∧
    resolve [("example.com", 1)] none = none ∧
    resolve (CertStore.insert [("example.com", 1)] "example.com" 2) (some "example.com") = some 2 := by
  refine ⟨C7_certResolver.1 [] "bad!name" 1 (by decide),
    C7_certResolver.2.1 [] "example.com" "EXAMPLE.COM" 1 (by decide) (by decide),
    C7_certResolver.2.2.2.2 [("example.com", 1)] "other.example" (by decide),
    C7_certResolver.2.2.2.1 [("example.com", 1)],
    C7_certResolver.2.2.1 [] [("example.com", 1)] _ "example.com" 1 2 rfl rfl⟩

end Gateway
